import Mathlib

/-!
Verification of the data-processing core of the CO2 emissions dashboard
(loader, aggregator, metrics).  Dataframes are embedded as lists of rows;
numeric cells are rationals, and the IEEE-754 special values produced by
dataframe arithmetic (infinities, NaN) are modelled explicitly by `FVal`.
-/

namespace CO2

/-- One dataframe row.  `val` gives the numeric cell of each column; which
columns actually exist in the frame is recorded in `Table.cols`. -/
structure Row where
  country : String
  iso3 : String
  year : Int
  val : String → ℚ

/-- A dataframe: its column list plus its rows.  The columns `Country`,
`ISO 3166-1 alpha-3` and `Year` are structural fields of `Row`; numeric
columns are read through `Row.val`. -/
structure Table where
  cols : List String
  rows : List Row

/-- Result of a floating-point computation: a finite value (exact rational,
rounding is not modelled), an infinity, or NaN. -/
inductive FVal where
  | fin : ℚ → FVal
  | inf : FVal
  | neginf : FVal
  | nan : FVal
deriving DecidableEq

/-- IEEE-754 division on `FVal` (signed zero is not modelled: the rational 0
behaves as +0, which matches every expression reached in this code base). -/
def fdiv : FVal → FVal → FVal
  | .fin a, .fin b =>
      if b = 0 then (if a = 0 then .nan else if 0 < a then .inf else .neginf)
      else .fin (a / b)
  | .fin _, .inf => .fin 0
  | .fin _, .neginf => .fin 0
  | .inf, .fin b => if b < 0 then .neginf else .inf
  | .neginf, .fin b => if b < 0 then .inf else .neginf
  | .inf, .inf => .nan
  | .inf, .neginf => .nan
  | .neginf, .inf => .nan
  | .neginf, .neginf => .nan
  | .nan, _ => .nan
  | _, .nan => .nan

/-- IEEE-754 subtraction on `FVal`. -/
def fsub : FVal → FVal → FVal
  | .fin a, .fin b => .fin (a - b)
  | .fin _, .inf => .neginf
  | .fin _, .neginf => .inf
  | .inf, .fin _ => .inf
  | .neginf, .fin _ => .neginf
  | .inf, .inf => .nan
  | .inf, .neginf => .inf
  | .neginf, .neginf => .nan
  | .neginf, .inf => .neginf
  | .nan, _ => .nan
  | _, .nan => .nan

/-- IEEE-754 multiplication on `FVal`. -/
def fmul : FVal → FVal → FVal
  | .fin a, .fin b => .fin (a * b)
  | .fin a, .inf => if a = 0 then .nan else if 0 < a then .inf else .neginf
  | .fin a, .neginf => if a = 0 then .nan else if 0 < a then .neginf else .inf
  | .inf, .fin b => if b = 0 then .nan else if 0 < b then .inf else .neginf
  | .neginf, .fin b => if b = 0 then .nan else if 0 < b then .neginf else .inf
  | .inf, .inf => .inf
  | .inf, .neginf => .neginf
  | .neginf, .inf => .neginf
  | .neginf, .neginf => .inf
  | .nan, _ => .nan
  | _, .nan => .nan

/-- Sum of `column` over the rows of `t` whose Year is `y`: the embedding of
the recurring pandas idiom `df[df[Year] == y][column].sum()` (the sum of an
empty selection is 0, as in pandas). -/
def yearSum (t : Table) (c : String) (y : Int) : ℚ :=
  ((t.rows.filter (fun r => decide (r.year = y))).map (fun r => r.val c)).sum

/-- Optional year filter `df[df[Year] == year]` applied when a `year`
argument is given, the identity when it is `None`. -/
def filterYear (rows : List Row) : Option Int → List Row
  | some y => rows.filter (fun r => decide (r.year = y))
  | none => rows

/-- Comparison by a sort key drawn from a linear order. -/
def keyLe {α β : Type} (key : α → β) [LinearOrder β] (a b : α) : Prop := key a ≤ key b

instance {α β : Type} (key : α → β) [LinearOrder β] : DecidableRel (keyLe key) := fun a b =>
  inferInstanceAs (Decidable (key a ≤ key b))

instance {α β : Type} (key : α → β) [LinearOrder β] : IsTotal α (keyLe key) :=
  ⟨fun a b => le_total (key a) (key b)⟩

instance {α β : Type} (key : α → β) [LinearOrder β] : IsTrans α (keyLe key) :=
  ⟨fun _ _ _ h1 h2 => le_trans h1 h2⟩

/-- Stable ascending sort by a key, the model of a stable argsort. -/
def sortByKey {α β : Type} (key : α → β) [LinearOrder β] (l : List α) : List α :=
  List.insertionSort (keyLe key) l

/-- Embedding of the single-column pandas call
`df.sort_values(column, ascending=False)`: pandas computes an ascending
argsort of the column and then reverses it
(`pandas/core/sorting.py, nargsort: indexer = indexer[::-1]`).  The argsort
runs numpy's default quicksort, whose order on tied keys is unspecified in
general (it is the stable insertion-sort order only below the algorithm's
small-partition cutoff), so this model fixes one admissible tie order — the
reverse of a stable ascending sort.  Every general theorem proved from this
definition states only properties invariant under the choice of tie order
(lengths, being a permutation, descending sortedness, domination of the
dropped rows, sums); facts about the tie order itself are stated only at
concrete inputs small enough that numpy's argsort is exactly its stable
insertion sort, where the model is exact. -/
def sortValuesDesc (c : String) (rows : List Row) : List Row :=
  (sortByKey (fun r => r.val c) rows).reverse

/-- Embedding of `aggregate_by_year` (aggregator.py): returns the empty
frame when the table is empty or the column is absent, otherwise sums
`column` grouped by Year.  Pandas `groupby` emits one row per distinct key,
sorted ascending. -/
def aggregate_by_year (t : Table) (c : String) : List (Int × ℚ) :=
  if t.rows.isEmpty ∨ ¬ c ∈ t.cols then []
  else
    (sortByKey (fun y : Int => y) ((t.rows.map (fun r => r.year)).dedup)).map
      (fun y => (y, yearSum t c y))

/-- The six source columns hard-coded in aggregator.py. -/
def sourceColumns : List String := ["Coal", "Oil", "Gas", "Cement", "Flaring", "Other"]

/-- Source columns actually present in the frame:
`[col for col in source_columns if col in df.columns]`. -/
def presentSources (t : Table) : List String :=
  sourceColumns.filter (fun s => decide (s ∈ t.cols))

/-- Per-year sum of one source column over the (optionally year-filtered)
rows: the `df.groupby('Year')[source_columns].sum()` cell for year `y` and
source `s` in `calculate_per_source_percentages`. -/
def srcSums (t : Table) (year : Option Int) (y : Int) (s : String) : ℚ :=
  ((( filterYear t.rows year).filter (fun r => decide (r.year = y))).map (fun r => r.val s)).sum

/-- Row-wise cross-source total `sources_by_year[source_columns].sum(axis=1)`
for the year `y` row. -/
def srcRowTotal (t : Table) (year : Option Int) (y : Int) : ℚ :=
  ((presentSources t).map (srcSums t year y)).sum

/-- The percentage cell added by
`sources_by_year[src_pct] = (sources_by_year[source] /
sources_by_year[source_columns].sum(axis=1)) * 100`: a plain float division
with no zero-denominator guard, hence `FVal`-valued. -/
def srcPct (t : Table) (year : Option Int) (y : Int) (s : String) : FVal :=
  fmul (fdiv (.fin (srcSums t year y s)) (.fin (srcRowTotal t year y))) (.fin 100)

/-- Embedding of `calculate_per_source_percentages` (aggregator.py): empty
frame when the table is empty or no source column is present; otherwise one
row per distinct Year of the (optionally filtered) rows, carrying the
per-source sums and the percentage columns. -/
def calculate_per_source_percentages (t : Table) (year : Option Int) :
    List (Int × (String → ℚ) × (String → FVal)) :=
  if t.rows.isEmpty then []
  else if (presentSources t).isEmpty then []
  else
    (sortByKey (fun y : Int => y)
        (((filterYear t.rows year).map (fun r => r.year)).dedup)).map
      (fun y => (y, srcSums t year y, srcPct t year y))

/-- Embedding of `get_top_emitters` (aggregator.py): empty frame when the
table is empty or the column is absent; otherwise
`df.sort_values(column, ascending=False).head(n)` on the (optionally
year-filtered) rows. -/
def get_top_emitters (t : Table) (c : String) (year : Option Int) (n : Nat) : List Row :=
  if t.rows.isEmpty ∨ ¬ c ∈ t.cols then []
  else (sortValuesDesc c (filterYear t.rows year)).take n

/-- The static `REGIONS` mapping of config.py, as the insertion-ordered list
of pairs a Python dict iterates over. -/
def REGIONS : List (String × List String) :=
  [("North America", ["USA", "CAN", "MEX"]),
   ("Europe", ["DEU", "GBR", "FRA", "ITA", "ESP"]),
   ("Asia", ["CHN", "IND", "JPN", "KOR", "IDN"]),
   ("Middle East", ["SAU", "IRN", "ARE", "QAT", "KWT"]),
   ("Africa", ["ZAF", "NGA", "EGY", "DZA", "MAR"]),
   ("South America", ["BRA", "ARG", "COL", "CHL", "PER"]),
   ("Oceania", ["AUS", "NZL"])]

/-- The `region_map` dictionary built in `aggregate_by_region`: iterate the
regions in order and write `region_map[country_code] = region` for each code,
so a later entry overwrites an earlier one. -/
def buildRegionMap (regions : List (String × List String)) : String → Option String :=
  regions.foldl
    (fun m p => p.2.foldl (fun m2 code => fun x => if x = code then some p.1 else m2 x) m)
    (fun _ => none)

/-- Embedding of `aggregate_by_region` (aggregator.py): guard, optional year
filter, map each row to its region through `region_map`, drop unmapped rows,
then group by region (pandas groupby sorts the region keys ascending) and
sum `column`. -/
def aggregate_by_region (t : Table) (c : String) (year : Option Int) : List (String × ℚ) :=
  if t.rows.isEmpty ∨ ¬ c ∈ t.cols then []
  else
    let rmap := buildRegionMap REGIONS
    let mapped := (filterYear t.rows year).filter (fun r => (rmap r.iso3).isSome)
    (sortByKey (fun s : String => s)
        ((mapped.filterMap (fun r => rmap r.iso3)).dedup)).map
      (fun reg =>
        (reg, ((mapped.filter (fun r => decide (rmap r.iso3 = some reg))).map
          (fun r => r.val c)).sum))

/-- Largest Year present in the table: `df['Year'].max()` (only used on
nonempty tables, which the guard of `calculate_growth_rates` ensures). -/
def maxYear (t : Table) : Int :=
  match t.rows with
  | [] => 0
  | r :: rs => rs.foldl (fun m x => max m x.year) r.year

/-- First-occurrence deduplication: `df['Country'].unique()`. -/
def uniqFirst (l : List String) : List String :=
  l.foldl (fun acc x => if x ∈ acc then acc else acc ++ [x]) []

/-- Value of `column` for the row of country `u` at year `y`: the cell the
Country-indexed pandas Series of `calculate_growth_rates` holds for `u`
(`df[df['Year'] == y][['Country', column]].set_index('Country')`), `none`
when `u` has no row at year `y`. -/
def lookupVal (t : Table) (c : String) (y : Int) (u : String) : Option ℚ :=
  (t.rows.find? (fun r => decide (r.year = y) && decide (r.country = u))).map
    (fun r => r.val c)

/-- The growth cell of one country for one period:
`((current_year_data[column] / past_year_data[column]) - 1) * 100` under
pandas index alignment, which produces NaN for a country absent from either
year.  The division itself is float division, hence `FVal`-valued. -/
def growthEntry (t : Table) (c : String) (latest : Int) (u : String) (P : Int) : FVal :=
  match lookupVal t c latest u, lookupVal t c (latest - P) u with
  | some cur, some past => fmul (fsub (fdiv (.fin cur) (.fin past)) (.fin 1)) (.fin 100)
  | _, _ => .nan

/-- Embedding of `calculate_growth_rates` (aggregator.py): guard, then one
result row per unique country (first-occurrence order, as
`df['Country'].unique()`), carrying one growth cell per period, left-joined
onto the country list.  The pandas Series alignment inside the loop is only
position-faithful when the countries of the lookback year are a subset of
the countries of the latest year, each year has at most one row per country,
and the latest-year country order is either identical to the lookback order
or sorted (otherwise the real code raises a length-mismatch error or pairs
growth values with the wrong country labels); the theorems below carry these
conditions as hypotheses. -/
def calculate_growth_rates (t : Table) (c : String) (periods : List Int) :
    List (String × List FVal) :=
  if t.rows.isEmpty ∨ ¬ c ∈ t.cols then []
  else
    (uniqFirst (t.rows.map (fun r => r.country))).map
      (fun u => (u, periods.map (growthEntry t c (maxYear t) u)))

/-- The countries having a row at year `y`, in row order. -/
def countriesAt (t : Table) (y : Int) : List String :=
  (t.rows.filter (fun r => decide (r.year = y))).map (fun r => r.country)

/-- A raw CSV cell as `pd.read_csv` delivers it: a numeric value or a piece
of text that is not numeric (so `astype(int)` raises on it). -/
inductive RawVal where
  | num : Int → RawVal
  | txt : String → RawVal
deriving DecidableEq

/-- A parsed CSV file before the loader touches it. -/
structure RawTable where
  cols : List String
  cells : List (String → RawVal)

/-- The Year cast of `df['Year'].astype(int)` on one cell: numeric cells
convert, non-numeric text raises (modelled as `none`, caught by the
enclosing `except`). -/
def coerceYear : RawVal → Option Int
  | .num n => some n
  | .txt _ => none

/-- Year coercion over the whole column: `some` of the coerced list when
every cell converts, `none` when any cell raises. -/
def allYears : List (String → RawVal) → Option (List Int)
  | [] => some []
  | r :: rs =>
    match coerceYear (r "Year"), allYears rs with
    | some y, some ys => some (y :: ys)
    | _, _ => none

/-- Path constant `config.TOTAL_EMISSIONS_FILE`. -/
def totalEmissionsFile : String := "data/GCB2022v27_MtCO2_flat.csv"

/-- The `required_columns` list of `load_emissions_data`. -/
def requiredColumnsTotal : List String := ["Country", "ISO 3166-1 alpha-3", "Year", "Total"]

/-- Outcome of a loader call: either the loaded table together with its
integer-coerced Year column, or an empty dataframe accompanied by the
`st.error` message (the `except` catch-all makes every failure take the
second form, so the function is total and never propagates a fault). -/
inductive LoadResult where
  | ok : RawTable → List Int → LoadResult
  | errEmpty : String → LoadResult
deriving Inhabited

/-- Embedding of `load_emissions_data` (loader.py) over an abstract file
system `fs` mapping a path to the parsed content of the file at that path
(`none` when the file does not exist): existence check, required-column
validation in order, Year coercion, each failure reported via `st.error`
and downgraded to an empty frame. -/
def load_emissions_data (fs : String → Option RawTable) : LoadResult :=
  match fs totalEmissionsFile with
  | none => .errEmpty ("Error: Data file not found at " ++ totalEmissionsFile)
  | some df =>
    match requiredColumnsTotal.find? (fun c => decide (¬ c ∈ df.cols)) with
    | some c => .errEmpty ("Error: Required column " ++ c ++ " not found in data")
    | none =>
      match allYears df.cells with
      | some ys => .ok df ys
      | none => .errEmpty "Error loading emissions data: invalid Year value"

/-- Embedding of `calculate_percent_change` (metrics.py): the two year sums,
the explicit zero-denominator policy, otherwise the exact formula. -/
def calculate_percent_change (t : Table) (c : String) (y1 y2 : Int) : FVal :=
  let v1 := yearSum t c y1
  let v2 := yearSum t c y2
  if v1 = 0 then (if 0 < v2 then .inf else if v2 < 0 then .neginf else .fin 0)
  else .fin ((v2 - v1) / v1 * 100)

/-- Result of the float CAGR computation: a finite real value (rounding is
not modelled) or NaN. -/
inductive RVal where
  | fin : ℝ → RVal
  | nan : RVal

/-- Embedding of `calculate_cagr` (metrics.py): after the guard the value is
the numpy float evaluation of `((end/start) ** (1/n)) - 1) * 100`.  A numpy
float power returns NaN on a negative base with a non-integral exponent;
past the guard the horizon n is at least 1, and the exponent 1/n is integral
exactly when n = 1, where a negative base is returned unchanged — which the
real power also does, so the finite branch is the real power. -/
noncomputable def calculate_cagr (t : Table) (c : String) (y1 y2 : Int) : RVal :=
  let s := yearSum t c y1
  let e := yearSum t c y2
  let n := y2 - y1
  if s ≤ 0 ∨ n ≤ 0 then .fin 0
  else if e / s < 0 ∧ n ≠ 1 then .nan
  else .fin ((((e : ℝ) / (s : ℝ)) ^ ((1 : ℝ) / (n : ℝ)) - 1) * 100)

/-- The rows of `year_df` inside `calculate_top_contributors` after the year
filter and the optional `min_value` filter. -/
def qualifying (t : Table) (c : String) (year : Int) (mv : Option ℚ) : List Row :=
  match mv with
  | some m => (t.rows.filter (fun r => decide (r.year = year))).filter
      (fun r => decide (m ≤ r.val c))
  | none => t.rows.filter (fun r => decide (r.year = year))

/-- Embedding of `calculate_top_contributors` (metrics.py): filter, sort
descending, truncate to `n`, then attach to each kept row its percentage of
the full filtered total (computed before truncation); when that total is not
positive the Percentage column is the constant 0. -/
def calculate_top_contributors (t : Table) (c : String) (year : Int) (n : Nat)
    (mv : Option ℚ) : List (Row × ℚ) :=
  let q := qualifying t c year mv
  let top_n := (sortValuesDesc c q).take n
  let total := (q.map (fun r => r.val c)).sum
  if 0 < total then top_n.map (fun r => (r, r.val c / total * 100))
  else top_n.map (fun r => (r, 0))

/-! Example tables used by the concrete statements. -/

/-- Row of the total-emissions shape whose only nonzero column is Total. -/
def mkRow (co iso : String) (y : Int) (tot : ℚ) : Row :=
  ⟨co, iso, y, fun c => if c = "Total" then tot else 0⟩

/-- Column list of the total-emissions file. -/
def stdCols : List String := ["Country", "ISO 3166-1 alpha-3", "Year", "Total"]

/-- Two-country table with both rows tied on Total. -/
def exTie : Table := ⟨stdCols, [mkRow "A" "AAA" 2000 5, mkRow "B" "BBB" 2000 5]⟩

/-- Sources-shaped table with a single row whose source columns are all 0. -/
def exZeroSources : Table := ⟨stdCols ++ sourceColumns, [⟨"A", "AAA", 2000, fun _ => 0⟩]⟩

/-- Table whose year-2000 column values are 100 and -50. -/
def exNegVal : Table := ⟨stdCols, [mkRow "A" "AAA" 2000 100, mkRow "B" "BBB" 2000 (-50)]⟩

/-- Table whose year-2000 column values are the nonnegative 100 and 50. -/
def exNonneg : Table := ⟨stdCols, [mkRow "A" "AAA" 2000 100, mkRow "B" "BBB" 2000 50]⟩

/-- Table with one country present in 2020 and 2015 and another present only
in 2020. -/
def exGrowth : Table :=
  ⟨stdCols, [mkRow "A" "AAA" 2020 110, mkRow "A" "AAA" 2015 100, mkRow "B" "BBB" 2020 50]⟩

/-- Three-row table spanning two years. -/
def exTwoYears : Table :=
  ⟨stdCols, [mkRow "A" "AAA" 2001 3, mkRow "B" "BBB" 2000 4, mkRow "A" "AAA" 2000 5]⟩

/-- Table whose Total sum is 1 in 2000 and -4 in 2002: a positive start, a
negative end and a two-year horizon. -/
def exCagrNeg : Table :=
  ⟨stdCols, [mkRow "A" "AAA" 2000 1, mkRow "A" "AAA" 2002 (-4)]⟩

/-- Table with a USA row, a CHN row and a row whose code no region claims. -/
def exRegions : Table :=
  ⟨stdCols, [mkRow "U" "USA" 2000 7, mkRow "C" "CHN" 2000 9, mkRow "X" "XXX" 2000 3]⟩

/-- A well-formed raw file for the loader. -/
def exRaw : RawTable :=
  ⟨["Country", "ISO 3166-1 alpha-3", "Year", "Total"],
   [fun c => if c = "Year" then RawVal.num 2000 else RawVal.num 1]⟩

/-! Helper lemmas about the stable sort, first-occurrence deduplication and
association lookup used by the embeddings. -/

theorem sortByKey_perm {α β : Type} (key : α → β) [LinearOrder β] (l : List α) :
    (sortByKey key l).Perm l :=
  List.perm_insertionSort (keyLe key) l

theorem sortByKey_sorted {α β : Type} (key : α → β) [LinearOrder β] (l : List α) :
    (sortByKey key l).Pairwise (keyLe key) :=
  List.sorted_insertionSort (keyLe key) l

theorem pairwise_lt_of_le_nodup {β : Type} [LinearOrder β] {l : List β}
    (h1 : l.Pairwise (fun a b => a ≤ b)) (h2 : l.Nodup) : l.Pairwise (fun a b => a < b) :=
  (h1.and h2).imp (fun h => lt_of_le_of_ne h.1 h.2)

theorem mem_foldl_uniq (l : List String) (acc : List String) (x : String) :
    x ∈ l.foldl (fun a y => if y ∈ a then a else a ++ [y]) acc ↔ x ∈ acc ∨ x ∈ l := by
  induction l generalizing acc with
  | nil => simp
  | cons y l ih =>
      rw [List.foldl_cons, ih]
      by_cases hy : y ∈ acc
      · simp only [if_pos hy, List.mem_cons]
        constructor
        · rintro (h | h)
          · exact Or.inl h
          · exact Or.inr (Or.inr h)
        · rintro (h | h | h)
          · exact Or.inl h
          · exact Or.inl (h ▸ hy)
          · exact Or.inr h
      · simp [if_neg hy, List.mem_append, List.mem_cons, or_assoc]

theorem mem_uniqFirst (l : List String) (x : String) : x ∈ uniqFirst l ↔ x ∈ l := by
  rw [uniqFirst, mem_foldl_uniq]
  simp

theorem lookup_map_pair {γ : Type} (f : String → γ) (l : List String) (u : String)
    (h : u ∈ l) : (l.map (fun x => (x, f x))).lookup u = some (f u) := by
  induction l with
  | nil => cases h
  | cons a l ih =>
      by_cases hu : u = a
      · subst hu
        simp [List.lookup]
      · have hm : u ∈ l := by
          rcases List.mem_cons.mp h with h1 | h1
          · exact absurd h1 hu
          · exact h1
        have hb : (u == a) = false := beq_eq_false_iff_ne.mpr hu
        simp [List.lookup, hb, ih hm]

theorem allYears_spec : ∀ (cells : List (String → RawVal)) (ys : List Int),
    allYears cells = some ys →
    ys.length = cells.length ∧
      ∀ i (h1 : i < cells.length) (h2 : i < ys.length),
        coerceYear ((cells.get ⟨i, h1⟩) "Year") = some (ys.get ⟨i, h2⟩) := by
  intro cells
  induction cells with
  | nil =>
      intro ys h
      simp only [allYears, Option.some.injEq] at h
      subst h
      exact ⟨rfl, fun i h1 _ => absurd h1 (by simp)⟩
  | cons r rs ih =>
      intro ys h
      simp only [allYears] at h
      cases hy : coerceYear (r "Year") with
      | none => rw [hy] at h; cases h
      | some y =>
        cases hrs : allYears rs with
        | none => rw [hy, hrs] at h; cases h
        | some ys2 =>
          rw [hy, hrs] at h
          injection h with h
          subst h
          obtain ⟨hlen, hspec⟩ := ih ys2 hrs
          refine ⟨by simp [hlen], ?_⟩
          intro i h1 h2
          cases i with
          | zero => simpa using hy
          | succ j =>
            have h1j : j < rs.length := by simpa using h1
            have h2j : j < ys2.length := by simpa using h2
            simpa using hspec j h1j h2j

/-! Claims. -/

/-- C3: `calculate_percent_change` returns ((sum(column,year2) -
sum(column,year1)) / sum(column,year1)) * 100 when the year1 sum is nonzero;
when the year1 sum is exactly 0 it returns +infinity if the year2 sum is
positive, -infinity if the year2 sum is negative, and 0 if the year2 sum is
also 0. -/
theorem claim_C3 (t : Table) (c : String) (y1 y2 : Int) :
    (yearSum t c y1 = 0 ∧ 0 < yearSum t c y2 →
      calculate_percent_change t c y1 y2 = FVal.inf) ∧
    (yearSum t c y1 = 0 ∧ yearSum t c y2 < 0 →
      calculate_percent_change t c y1 y2 = FVal.neginf) ∧
    (yearSum t c y1 = 0 ∧ yearSum t c y2 = 0 →
      calculate_percent_change t c y1 y2 = FVal.fin 0) ∧
    (yearSum t c y1 ≠ 0 →
      calculate_percent_change t c y1 y2 =
        FVal.fin ((yearSum t c y2 - yearSum t c y1) / yearSum t c y1 * 100)) := by
  refine ⟨?_, ?_, ?_, ?_⟩
  · intro h
    simp [calculate_percent_change, h.1, h.2]
  · intro h
    have h2 : ¬ 0 < yearSum t c y2 := not_lt.mpr (le_of_lt h.2)
    simp [calculate_percent_change, h.1, h.2, h2]
  · intro h
    simp [calculate_percent_change, h.1, h.2]
  · intro h
    simp [calculate_percent_change, h]

/-- Witness for C3 at a concrete table: the year-1999 sum is 0 and the
year-2000 sum is positive, so the result is +infinity. -/
theorem claim_C3_witness :
    calculate_percent_change exNonneg "Total" 1999 2000 = FVal.inf :=
  (claim_C3 exNonneg "Total" 1999 2000).1
    ⟨by norm_num [yearSum, exNonneg, mkRow], by norm_num [yearSum, exNonneg, mkRow]⟩

/-- C6: `calculate_cagr` returns 0 whenever the start-year sum is at most 0
or the horizon is non-positive (in particular on a zero horizon), and
otherwise returns the float evaluation of
((end/start)^(1/(end_year-start_year)) - 1) * 100: NaN when the base
end/start is negative with a fractional exponent (horizon at least 2),
otherwise the finite real power value. -/
theorem claim_C6 (t : Table) (c : String) (y1 y2 : Int) :
    (yearSum t c y1 ≤ 0 ∨ y2 ≤ y1 → calculate_cagr t c y1 y2 = RVal.fin 0) ∧
    calculate_cagr t c y1 y1 = RVal.fin 0 ∧
    (0 < yearSum t c y1 → y1 < y2 →
      (yearSum t c y2 / yearSum t c y1 < 0 ∧ y2 - y1 ≠ 1 →
        calculate_cagr t c y1 y2 = RVal.nan) ∧
      (¬ (yearSum t c y2 / yearSum t c y1 < 0 ∧ y2 - y1 ≠ 1) →
        calculate_cagr t c y1 y2 =
          RVal.fin ((((yearSum t c y2 : ℝ) / (yearSum t c y1 : ℝ)) ^
              ((1 : ℝ) / ((y2 - y1 : ℤ) : ℝ)) - 1) * 100))) := by
  refine ⟨?_, ?_, ?_⟩
  · intro h
    have hcond : yearSum t c y1 ≤ 0 ∨ y2 - y1 ≤ 0 := by
      rcases h with h | h
      · exact Or.inl h
      · exact Or.inr (sub_nonpos.mpr h)
    simp only [calculate_cagr]
    rw [if_pos hcond]
  · simp only [calculate_cagr]
    rw [if_pos (Or.inr (by simp))]
  · intro hs hy
    have hcond : ¬ (yearSum t c y1 ≤ 0 ∨ y2 - y1 ≤ 0) := by
      push_neg
      exact ⟨hs, sub_pos.mpr hy⟩
    constructor
    · intro hnan
      simp only [calculate_cagr]
      rw [if_neg hcond, if_pos hnan]
    · intro hfin
      simp only [calculate_cagr]
      rw [if_neg hcond, if_neg hfin]

/-- Witness for C6 at concrete tables: a reversed (non-positive) horizon
yields 0, and a negative end-year sum over a positive start with a two-year
horizon yields NaN. -/
theorem claim_C6_witness :
    calculate_cagr exTwoYears "Total" 2001 2000 = RVal.fin 0 ∧
    calculate_cagr exCagrNeg "Total" 2000 2002 = RVal.nan := by
  constructor
  · exact (claim_C6 exTwoYears "Total" 2001 2000).1 (Or.inr (by norm_num))
  · refine ((claim_C6 exCagrNeg "Total" 2000 2002).2.2
      (by norm_num [yearSum, exCagrNeg, mkRow]) (by norm_num)).1 ?_
    constructor
    · norm_num [yearSum, exCagrNeg, mkRow]
    · norm_num

/-- C4: `load_emissions_data` reports a user-facing error naming the missing
file or the first missing required column and returns the empty frame in
those cases; the Year coercion failure is likewise caught; on success the
Year column is coerced to integer cell by cell and the table is otherwise
returned unmodified; and for every file system the call lands in one of the
two outcome shapes, never an unhandled fault. -/
theorem claim_C4 (fs : String → Option RawTable) :
    (fs totalEmissionsFile = none →
      load_emissions_data fs =
        .errEmpty ("Error: Data file not found at " ++ totalEmissionsFile)) ∧
    (∀ df, fs totalEmissionsFile = some df →
      (∃ c ∈ requiredColumnsTotal, ¬ c ∈ df.cols) →
      ∃ c, c ∈ requiredColumnsTotal ∧ ¬ c ∈ df.cols ∧
        load_emissions_data fs =
          .errEmpty ("Error: Required column " ++ c ++ " not found in data")) ∧
    (∀ df, fs totalEmissionsFile = some df →
      (∀ c ∈ requiredColumnsTotal, c ∈ df.cols) →
      (allYears df.cells = none →
        load_emissions_data fs =
          .errEmpty "Error loading emissions data: invalid Year value") ∧
      (∀ ys, allYears df.cells = some ys →
        load_emissions_data fs = .ok df ys ∧
        ys.length = df.cells.length ∧
        ∀ i (h1 : i < df.cells.length) (h2 : i < ys.length),
          coerceYear ((df.cells.get ⟨i, h1⟩) "Year") = some (ys.get ⟨i, h2⟩))) ∧
    ((∃ m, load_emissions_data fs = .errEmpty m) ∨
      ∃ df ys, load_emissions_data fs = .ok df ys) := by
  refine ⟨?_, ?_, ?_, ?_⟩
  · intro h
    unfold load_emissions_data
    rw [h]
  · intro df hdf hex
    cases hfind : requiredColumnsTotal.find? (fun c => decide (¬ c ∈ df.cols)) with
    | none =>
        exfalso
        obtain ⟨c, hc, hcm⟩ := hex
        have hn := List.find?_eq_none.mp hfind c hc
        simp [hcm] at hn
    | some c =>
        have hp := List.find?_some hfind
        simp only [decide_eq_true_eq] at hp
        refine ⟨c, List.mem_of_find?_eq_some hfind, hp, ?_⟩
        simp only [load_emissions_data, hdf]
        rw [hfind]
  · intro df hdf hall
    have hfind : requiredColumnsTotal.find? (fun c => decide (¬ c ∈ df.cols)) = none :=
      List.find?_eq_none.mpr (fun c hc => by simp [hall c hc])
    constructor
    · intro hy
      simp only [load_emissions_data, hdf]
      rw [hfind, hy]
    · intro ys hy
      refine ⟨?_, ?_, ?_⟩
      · simp only [load_emissions_data, hdf]
        rw [hfind, hy]
      · exact (allYears_spec df.cells ys hy).1
      · exact (allYears_spec df.cells ys hy).2
  · cases hf : fs totalEmissionsFile with
    | none =>
        refine Or.inl ⟨"Error: Data file not found at " ++ totalEmissionsFile, ?_⟩
        unfold load_emissions_data
        rw [hf]
    | some df =>
        cases hfind : requiredColumnsTotal.find? (fun c => decide (¬ c ∈ df.cols)) with
        | some c =>
            refine Or.inl ⟨"Error: Required column " ++ c ++ " not found in data", ?_⟩
            simp only [load_emissions_data, hf]
            rw [hfind]
        | none =>
            cases hy : allYears df.cells with
            | none =>
                refine Or.inl ⟨"Error loading emissions data: invalid Year value", ?_⟩
                simp only [load_emissions_data, hf]
                rw [hfind, hy]
            | some ys =>
                refine Or.inr ⟨df, ys, ?_⟩
                simp only [load_emissions_data, hf]
                rw [hfind, hy]

/-- Witness for C4 at a concrete file system with no file: the missing-file
error message is produced. -/
theorem claim_C4_witness :
    load_emissions_data (fun _ => none) =
      .errEmpty ("Error: Data file not found at " ++ totalEmissionsFile) :=
  (claim_C4 (fun _ => none)).1 rfl

/-- C5: on an empty table or absent column `aggregate_by_year` returns the
empty frame; otherwise its year column is strictly increasing, it carries
exactly the distinct Year values of the table, and each row's value is the
manual sum of the column over the rows of that year. -/
theorem claim_C5 (t : Table) (c : String) :
    (t.rows = [] ∨ ¬ c ∈ t.cols → aggregate_by_year t c = []) ∧
    (c ∈ t.cols → t.rows ≠ [] →
      ((aggregate_by_year t c).map Prod.fst).Pairwise (fun a b => a < b) ∧
      (∀ y, y ∈ (aggregate_by_year t c).map Prod.fst ↔ y ∈ t.rows.map (fun r => r.year)) ∧
      (aggregate_by_year t c).length = (t.rows.map (fun r => r.year)).dedup.length ∧
      ∀ p ∈ aggregate_by_year t c, p.2 = yearSum t c p.1) := by
  constructor
  · intro h
    have hcond : t.rows.isEmpty = true ∨ ¬ c ∈ t.cols := by
      rcases h with h | h
      · exact Or.inl (by simp [h])
      · exact Or.inr h
    simp only [aggregate_by_year]
    rw [if_pos hcond]
  · intro hc hne
    have hcond : ¬ (t.rows.isEmpty = true ∨ ¬ c ∈ t.cols) := by
      push_neg
      exact ⟨by simpa [List.isEmpty_iff] using hne, hc⟩
    have hagg : aggregate_by_year t c =
        (sortByKey (fun y : Int => y) ((t.rows.map (fun r => r.year)).dedup)).map
          (fun y => (y, yearSum t c y)) := by
      simp only [aggregate_by_year]
      rw [if_neg hcond]
    have hfst : (aggregate_by_year t c).map Prod.fst =
        sortByKey (fun y : Int => y) ((t.rows.map (fun r => r.year)).dedup) := by
      rw [hagg, List.map_map]
      exact List.map_id _
    have hperm := sortByKey_perm (fun y : Int => y) ((t.rows.map (fun r => r.year)).dedup)
    refine ⟨?_, ?_, ?_, ?_⟩
    · rw [hfst]
      refine pairwise_lt_of_le_nodup ?_ ?_
      · exact (sortByKey_sorted (fun y : Int => y) _).imp (fun h => h)
      · exact hperm.symm.nodup (List.nodup_dedup _)
    · intro y
      rw [hfst, hperm.mem_iff, List.mem_dedup]
    · rw [hagg, List.length_map]
      exact hperm.length_eq
    · intro p hp
      rw [hagg] at hp
      obtain ⟨y, _, rfl⟩ := List.mem_map.mp hp
      rfl

/-- Witness for C5 at a concrete three-row, two-year table: the year column
of the aggregate is strictly increasing and each value is the per-year
manual sum. -/
theorem claim_C5_witness :
    ((aggregate_by_year exTwoYears "Total").map Prod.fst).Pairwise (fun a b => a < b) ∧
    ∀ p ∈ aggregate_by_year exTwoYears "Total", p.2 = yearSum exTwoYears "Total" p.1 := by
  have h := (claim_C5 exTwoYears "Total").2 (by decide) (List.cons_ne_nil _ _)
  exact ⟨h.1, h.2.2.2⟩

/-- Membership of the year rows in the result of
`calculate_per_source_percentages`. -/
theorem pctRow_mem (t : Table) (year : Option Int) (y : Int)
    (h1 : ¬ t.rows.isEmpty) (h2 : ¬ (presentSources t).isEmpty)
    (hy : y ∈ (filterYear t.rows year).map (fun r => r.year)) :
    (y, srcSums t year y, srcPct t year y) ∈ calculate_per_source_percentages t year := by
  simp only [calculate_per_source_percentages]
  rw [if_neg (by simpa using h1), if_neg (by simpa using h2)]
  refine List.mem_map.mpr ⟨y, ?_, rfl⟩
  exact (sortByKey_perm _ _).mem_iff.mpr (List.mem_dedup.mpr hy)

/-- C1 (amended): each percentage cell of
`calculate_per_source_percentages` is the unguarded float division
(source per-year sum) / (cross-source per-year total) * 100; when the
cross-source total is 0 the cell is NaN (source sum 0) or an infinity
(source sum nonzero) — never the finite value 0 the claim states. -/
theorem claim_C1_amended (t : Table) (year : Option Int) (y : Int) (s : String) :
    (¬ t.rows.isEmpty → ¬ (presentSources t).isEmpty →
      y ∈ (filterYear t.rows year).map (fun r => r.year) →
      (y, srcSums t year y, srcPct t year y) ∈ calculate_per_source_percentages t year) ∧
    (srcRowTotal t year y ≠ 0 →
      srcPct t year y s = FVal.fin (srcSums t year y s / srcRowTotal t year y * 100)) ∧
    (srcRowTotal t year y = 0 →
      srcPct t year y s ≠ FVal.fin 0 ∧
      (srcSums t year y s = 0 → srcPct t year y s = FVal.nan) ∧
      (0 < srcSums t year y s → srcPct t year y s = FVal.inf) ∧
      (srcSums t year y s < 0 → srcPct t year y s = FVal.neginf)) := by
  refine ⟨pctRow_mem t year y, ?_, ?_⟩
  · intro h
    simp [srcPct, fdiv, fmul, h]
  · intro h
    have hcase : srcPct t year y s = FVal.nan ∨ srcPct t year y s = FVal.inf ∨
        srcPct t year y s = FVal.neginf := by
      rcases lt_trichotomy (srcSums t year y s) 0 with h1 | h1 | h1
      · right; right
        norm_num [srcPct, fdiv, fmul, h, h1.ne, not_lt.mpr h1.le]
      · left
        norm_num [srcPct, fdiv, fmul, h, h1]
      · right; left
        norm_num [srcPct, fdiv, fmul, h, h1.ne', h1]
    refine ⟨?_, ?_, ?_, ?_⟩
    · rcases hcase with hc | hc | hc <;> simp [hc]
    · intro h1
      norm_num [srcPct, fdiv, fmul, h, h1]
    · intro h1
      norm_num [srcPct, fdiv, fmul, h, h1.ne', h1]
    · intro h1
      norm_num [srcPct, fdiv, fmul, h, h1.ne, not_lt.mpr h1.le]

/-- C1 counterexample: on a sources table whose single year-2000 row has
every source column 0, the year row is produced, its cross-source total is
0, and its Coal percentage is NaN — not the 0 the claim requires. -/
theorem claim_C1_counterexample :
    (2000, srcSums exZeroSources none 2000, srcPct exZeroSources none 2000) ∈
      calculate_per_source_percentages exZeroSources none ∧
    srcRowTotal exZeroSources none 2000 = 0 ∧
    srcPct exZeroSources none 2000 "Coal" = FVal.nan ∧
    FVal.nan ≠ FVal.fin 0 := by
  refine ⟨pctRow_mem exZeroSources none 2000 (by decide) (by decide) (by decide), ?_, ?_,
    by decide⟩
  · norm_num [srcRowTotal, srcSums, presentSources, sourceColumns, exZeroSources, stdCols,
      filterYear]
  · have h : srcRowTotal exZeroSources none 2000 = 0 := by
      norm_num [srcRowTotal, srcSums, presentSources, sourceColumns, exZeroSources, stdCols,
        filterYear]
    have h2 : srcSums exZeroSources none 2000 "Coal" = 0 := by
      norm_num [srcSums, exZeroSources, filterYear]
    simp [srcPct, h, h2, fdiv, fmul]

/-- Witness for the amended C1 at a concrete table: a zero cross-source
total with a zero Oil sum yields the NaN percentage. -/
theorem claim_C1_witness : srcPct exZeroSources none 2000 "Oil" = FVal.nan := by
  have h := (claim_C1_amended exZeroSources none 2000 "Oil").2.2
    (by norm_num [srcRowTotal, srcSums, presentSources, sourceColumns, exZeroSources, stdCols,
      filterYear])
  exact h.2.1 (by norm_num [srcSums, exZeroSources, filterYear])

/-- C2 (amended): `get_top_emitters` returns the first n rows of a
descending sort of the (optionally year-filtered) rows — a true top-n
selection: the kept rows are sorted descending, extend to a permutation of
the filtered rows, and dominate every dropped row.  Tie-breaking is NOT the
stable input order the claim asserts: the sort runs with the library's
default unstable algorithm and pandas reverses an ascending argsort, and at
the concrete two-row table `exTie` (where the argsort is provably numpy's
stable insertion sort) the tied rows come back in reversed input order. -/
theorem claim_C2_amended (t : Table) (c : String) (year : Option Int) (n : Nat)
    (hc : c ∈ t.cols) (hne : t.rows ≠ []) :
    (get_top_emitters t c year n).length = min n (filterYear t.rows year).length ∧
    (∃ rest, ((get_top_emitters t c year n) ++ rest).Perm (filterYear t.rows year) ∧
      ∀ a ∈ get_top_emitters t c year n, ∀ b ∈ rest, b.val c ≤ a.val c) ∧
    (get_top_emitters t c year n).Pairwise (fun a b => b.val c ≤ a.val c) := by
  have hcond : ¬ (t.rows.isEmpty = true ∨ ¬ c ∈ t.cols) := by
    push_neg
    exact ⟨by simpa [List.isEmpty_iff] using hne, hc⟩
  have hget : get_top_emitters t c year n =
      ((sortByKey (fun r : Row => r.val c) (filterYear t.rows year)).reverse).take n := by
    simp only [get_top_emitters, sortValuesDesc]
    rw [if_neg hcond]
  have hsorted : (sortByKey (fun r : Row => r.val c) (filterYear t.rows year)).Pairwise
      (fun a b => a.val c ≤ b.val c) :=
    (sortByKey_sorted (fun r : Row => r.val c) _).imp (fun h => h)
  have hrev : ((sortByKey (fun r : Row => r.val c) (filterYear t.rows year)).reverse).Pairwise
      (fun a b => b.val c ≤ a.val c) :=
    List.pairwise_reverse.mpr hsorted
  refine ⟨?_, ?_, ?_⟩
  · rw [hget, List.length_take, List.length_reverse, (sortByKey_perm _ _).length_eq]
  · refine ⟨(sortByKey (fun r : Row => r.val c) (filterYear t.rows year)).reverse.drop n, ?_, ?_⟩
    · rw [hget, List.take_append_drop]
      exact (List.reverse_perm _).trans (sortByKey_perm _ _)
    · intro a ha b hb
      rw [hget] at ha
      exact List.Sorted.rel_of_mem_take_of_mem_drop hrev ha hb
  · rw [hget]
    exact hrev.sublist (List.take_sublist _ _)

/-- C2 counterexample: a two-row table tied on Total comes back from
`get_top_emitters` in reversed order, so the stable-tie-order claim fails. -/
theorem claim_C2_counterexample :
    exTie.rows.map (fun r => r.val "Total") = [5, 5] ∧
    exTie.rows.map (fun r => r.country) = ["A", "B"] ∧
    (get_top_emitters exTie "Total" none 2).map (fun r => r.country) = ["B", "A"] ∧
    ¬ (get_top_emitters exTie "Total" none 2).map (fun r => r.country) =
      exTie.rows.map (fun r => r.country) := by
  refine ⟨by decide, by decide, by decide, by decide⟩

/-- Witness for the amended C2 at a concrete table: the selection keeps
min n (number of rows) rows. -/
theorem claim_C2_witness :
    (get_top_emitters exTie "Total" none 2).length = min 2 (filterYear exTie.rows none).length :=
  (claim_C2_amended exTie "Total" none 2 (by decide) (List.cons_ne_nil _ _)).1

/-- Distributivity of a common divide-and-scale over a list sum. -/
theorem sum_map_div_mul (l : List ℚ) (d k : ℚ) :
    (l.map (fun x => x / d * k)).sum = l.sum / d * k := by
  induction l with
  | nil => simp
  | cons a l ih =>
      simp only [List.map_cons, List.sum_cons, ih]
      ring

/-- C7 (amended): `calculate_top_contributors` attaches to each kept row its
percentage of the full filtered year total computed before truncation to n;
when every qualifying value is nonnegative and the filtered total is
positive, the kept percentages sum to at most 100, and to exactly 100 when n
is at least the number of qualifying rows.  (The counterexample shows the
unconditional bound of the claim fails once negative values qualify.) -/
theorem claim_C7_amended (t : Table) (c : String) (year : Int) (n : Nat) (mv : Option ℚ)
    (hnn : ∀ r ∈ qualifying t c year mv, 0 ≤ r.val c)
    (hpos : 0 < ((qualifying t c year mv).map (fun r => r.val c)).sum) :
    (∀ p ∈ calculate_top_contributors t c year n mv,
      p.2 = p.1.val c / ((qualifying t c year mv).map (fun r => r.val c)).sum * 100) ∧
    ((calculate_top_contributors t c year n mv).map Prod.snd).sum ≤ 100 ∧
    ((qualifying t c year mv).length ≤ n →
      ((calculate_top_contributors t c year n mv).map Prod.snd).sum = 100) := by
  have hcalc : calculate_top_contributors t c year n mv =
      ((sortValuesDesc c (qualifying t c year mv)).take n).map
        (fun r => (r, r.val c / ((qualifying t c year mv).map (fun r => r.val c)).sum * 100)) := by
    simp only [calculate_top_contributors]
    rw [if_pos hpos]
  have hperm : (sortValuesDesc c (qualifying t c year mv)).Perm (qualifying t c year mv) :=
    (List.reverse_perm _).trans (sortByKey_perm _ _)
  have hsnd : ((calculate_top_contributors t c year n mv).map Prod.snd).sum =
      (((sortValuesDesc c (qualifying t c year mv)).take n).map (fun r => r.val c)).sum /
        ((qualifying t c year mv).map (fun r => r.val c)).sum * 100 := by
    rw [hcalc, List.map_map]
    rw [show ((fun p : Row × ℚ => p.2) ∘ fun r : Row =>
        (r, r.val c / ((qualifying t c year mv).map (fun r => r.val c)).sum * 100)) =
        ((fun x : ℚ => x / ((qualifying t c year mv).map (fun r => r.val c)).sum * 100) ∘
          fun r : Row => r.val c) from rfl]
    rw [← List.map_map, sum_map_div_mul]
  refine ⟨?_, ?_, ?_⟩
  · intro p hp
    rw [hcalc] at hp
    obtain ⟨r, _, rfl⟩ := List.mem_map.mp hp
    rfl
  · have hsplit : (((sortValuesDesc c (qualifying t c year mv)).take n).map
        (fun r => r.val c)).sum +
        (((sortValuesDesc c (qualifying t c year mv)).drop n).map (fun r => r.val c)).sum =
        ((sortValuesDesc c (qualifying t c year mv)).map (fun r => r.val c)).sum := by
      rw [← List.sum_append, ← List.map_append, List.take_append_drop]
    have hSsum : ((sortValuesDesc c (qualifying t c year mv)).map (fun r => r.val c)).sum =
        ((qualifying t c year mv).map (fun r => r.val c)).sum :=
      (hperm.map (fun r => r.val c)).sum_eq
    have hdrop : 0 ≤ (((sortValuesDesc c (qualifying t c year mv)).drop n).map
        (fun r => r.val c)).sum := by
      refine List.sum_nonneg ?_
      intro x hx
      obtain ⟨r, hr, rfl⟩ := List.mem_map.mp hx
      exact hnn r (hperm.mem_iff.mp (List.drop_subset n _ hr))
    have hle : (((sortValuesDesc c (qualifying t c year mv)).take n).map
        (fun r => r.val c)).sum ≤ ((qualifying t c year mv).map (fun r => r.val c)).sum := by
      rw [← hSsum, ← hsplit]
      linarith
    rw [hsnd]
    calc (((sortValuesDesc c (qualifying t c year mv)).take n).map (fun r => r.val c)).sum /
          ((qualifying t c year mv).map (fun r => r.val c)).sum * 100
        ≤ 1 * 100 := by
          refine mul_le_mul_of_nonneg_right ?_ (by norm_num)
          exact (div_le_one hpos).mpr hle
      _ = 100 := one_mul 100
  · intro hlen
    have htake : (sortValuesDesc c (qualifying t c year mv)).take n =
        sortValuesDesc c (qualifying t c year mv) := by
      refine List.take_of_length_le ?_
      rw [hperm.length_eq]
      exact hlen
    rw [hsnd, htake, (hperm.map (fun r => r.val c)).sum_eq,
      div_self (ne_of_gt hpos), one_mul]

/-- C7 counterexample: with qualifying values 100 and -50 at year 2000 and
n = 1 < 2 qualifying rows, the kept percentage sums to 200, above the bound
of 100 the claim asserts. -/
theorem claim_C7_counterexample :
    (qualifying exNegVal "Total" 2000 none).length = 2 ∧
    ((calculate_top_contributors exNegVal "Total" 2000 1 none).map Prod.snd).sum = 200 ∧
    ¬ ((calculate_top_contributors exNegVal "Total" 2000 1 none).map Prod.snd).sum ≤ 100 := by
  refine ⟨by decide, ?_, ?_⟩ <;>
    norm_num [calculate_top_contributors, qualifying, sortValuesDesc, sortByKey,
      List.insertionSort, List.orderedInsert, keyLe, exNegVal, mkRow, filterYear]

/-- Witness for the amended C7 at a concrete nonnegative table with n larger
than the number of qualifying rows: the percentages sum to exactly 100. -/
theorem claim_C7_witness :
    ((calculate_top_contributors exNonneg "Total" 2000 3 none).map Prod.snd).sum = 100 :=
  (claim_C7_amended exNonneg "Total" 2000 3 none
      (by norm_num [qualifying, exNonneg, mkRow])
      (by norm_num [qualifying, exNonneg, mkRow])).2.2
    (by norm_num [qualifying, exNonneg, mkRow])

/-- C8: `calculate_growth_rates` carries, for each country present in the
table, one growth cell per period computed as
((value at the latest year) / (value at latest - P) - 1) * 100 under float
semantics, and a country with no data row at the lookback year gets the
missing value NaN — not the finite 0.  The subset, uniqueness and order
hypotheses delimit the inputs on which the pandas Series alignment inside
the source loop is position-faithful (outside them the real code raises a
length-mismatch error or mislabels rows, see `calculate_growth_rates`). -/
theorem claim_C8 (t : Table) (c : String) (periods : List Int) (P : Int) (u : String)
    (hne : t.rows ≠ []) (hc : c ∈ t.cols)
    (_hsub : ∀ v ∈ countriesAt t (maxYear t - P), v ∈ countriesAt t (maxYear t))
    (_hnd1 : (countriesAt t (maxYear t)).Nodup)
    (_hnd2 : (countriesAt t (maxYear t - P)).Nodup)
    (_hord : countriesAt t (maxYear t) = countriesAt t (maxYear t - P) ∨
      (countriesAt t (maxYear t)).Pairwise (fun a b => a < b))
    (hu : u ∈ t.rows.map (fun r => r.country)) :
    (calculate_growth_rates t c periods).lookup u =
      some (periods.map (growthEntry t c (maxYear t) u)) ∧
    ((∀ r ∈ t.rows, ¬ (r.year = maxYear t - P ∧ r.country = u)) →
      growthEntry t c (maxYear t) u P = FVal.nan) ∧
    (∀ cur past, lookupVal t c (maxYear t) u = some cur →
      lookupVal t c (maxYear t - P) u = some past →
      growthEntry t c (maxYear t) u P =
        fmul (fsub (fdiv (.fin cur) (.fin past)) (.fin 1)) (.fin 100)) ∧
    FVal.nan ≠ FVal.fin 0 := by
  have hcond : ¬ (t.rows.isEmpty = true ∨ ¬ c ∈ t.cols) := by
    push_neg
    exact ⟨by simpa [List.isEmpty_iff] using hne, hc⟩
  refine ⟨?_, ?_, ?_, by decide⟩
  · simp only [calculate_growth_rates]
    rw [if_neg hcond]
    exact lookup_map_pair (fun v => periods.map (growthEntry t c (maxYear t) v)) _ u
      ((mem_uniqFirst _ u).mpr hu)
  · intro hno
    have hfind : t.rows.find?
        (fun r => decide (r.year = maxYear t - P) && decide (r.country = u)) = none := by
      refine List.find?_eq_none.mpr ?_
      intro r hr
      simp only [Bool.and_eq_true, decide_eq_true_eq]
      exact fun hcontra => hno r hr ⟨hcontra.1, hcontra.2⟩
    have hnone : lookupVal t c (maxYear t - P) u = none := by
      simp [lookupVal, hfind]
    cases hcur : lookupVal t c (maxYear t) u with
    | none => simp [growthEntry, hcur, hnone]
    | some v => simp [growthEntry, hcur, hnone]
  · intro cur past hcur hpast
    simp [growthEntry, hcur, hpast]

/-- Witness for C8 at a concrete table whose country B is present in 2020
but absent in 2015: its 5-year growth cell is NaN. -/
theorem claim_C8_witness :
    growthEntry exGrowth "Total" (maxYear exGrowth) "B" 5 = FVal.nan :=
  (claim_C8 exGrowth "Total" [5] 5 "B" (List.cons_ne_nil _ _) (by decide) (by decide)
      (by decide) (by decide)
      (Or.inr (by
        have h : List.Pairwise (fun a b : String => a.toList < b.toList)
            (countriesAt exGrowth (maxYear exGrowth)) := by decide
        exact h.imp (fun hab => String.lt_iff_toList_lt.mpr hab)))
      (by decide)).2.1 (by decide)

/-- Writing one region's codes into the accumulator map overwrites exactly
the codes of that region. -/
theorem innerFold (region : String) (codes : List String) (m : String → Option String)
    (x : String) :
    (codes.foldl (fun m2 code => fun z => if z = code then some region else m2 z) m) x =
      if x ∈ codes then some region else m x := by
  induction codes generalizing m with
  | nil => simp
  | cons c cs ih =>
      rw [List.foldl_cons, ih]
      by_cases hx : x ∈ cs
      · simp [hx]
      · by_cases hxc : x = c <;> simp [hx, hxc]

/-- Appending one region to the mapping makes its codes win over everything
written before. -/
theorem buildRegionMap_append_single (rs : List (String × List String))
    (p : String × List String) (code : String) :
    buildRegionMap (rs ++ [p]) code =
      if code ∈ p.2 then some p.1 else buildRegionMap rs code := by
  simp only [buildRegionMap, List.foldl_append, List.foldl_cons, List.foldl_nil]
  exact innerFold p.1 p.2 _ code

/-- The dictionary built by `aggregate_by_region` resolves each code to the
last region of the iteration order that lists it. -/
theorem buildRegionMap_eq_lastMatch (regions : List (String × List String)) (code : String) :
    buildRegionMap regions code =
      (regions.reverse.find? (fun p => decide (code ∈ p.2))).map (fun p => p.1) := by
  induction regions using List.reverseRecOn with
  | nil => rfl
  | append_singleton rs p ih =>
      rw [buildRegionMap_append_single, List.reverse_append]
      by_cases hc : code ∈ p.2
      · rw [if_pos hc]
        simp [List.find?_cons_of_pos, hc]
      · rw [if_neg hc, ih]
        simp [List.find?_cons_of_neg, hc]

/-- C10: the code-to-region dictionary is built by overwriting, so a code
listed under several regions resolves to the last region in iteration
order; in the shipped REGIONS mapping every code is claimed by at most one
region, and `aggregate_by_region` groups each mapped row into exactly the
(unique) region of its code: the region keys of the result are distinct,
each region value is the sum over precisely the rows mapping to that
region, and every mapped row's region occurs among the keys. -/
theorem claim_C10 :
    (∀ (regions : List (String × List String)) (code : String),
      buildRegionMap regions code =
        (regions.reverse.find? (fun p => decide (code ∈ p.2))).map (fun p => p.1)) ∧
    (∀ p ∈ REGIONS, ∀ q ∈ REGIONS, ∀ code ∈ p.2, code ∈ q.2 → p.1 = q.1) ∧
    (∀ (t : Table) (c : String) (year : Option Int), c ∈ t.cols → t.rows ≠ [] →
      ((aggregate_by_region t c year).map Prod.fst).Nodup ∧
      (∀ e ∈ aggregate_by_region t c year,
        e.2 = (((filterYear t.rows year).filter
            (fun r => decide (buildRegionMap REGIONS r.iso3 = some e.1))).map
          (fun r => r.val c)).sum) ∧
      (∀ r ∈ filterYear t.rows year, ∀ reg, buildRegionMap REGIONS r.iso3 = some reg →
        reg ∈ (aggregate_by_region t c year).map Prod.fst)) := by
  refine ⟨buildRegionMap_eq_lastMatch, by decide, ?_⟩
  intro t c year hc hne
  have hcond : ¬ (t.rows.isEmpty = true ∨ ¬ c ∈ t.cols) := by
    push_neg
    exact ⟨by simpa [List.isEmpty_iff] using hne, hc⟩
  have hagg : aggregate_by_region t c year =
      (sortByKey (fun s : String => s)
          ((((filterYear t.rows year).filter
              (fun r => (buildRegionMap REGIONS r.iso3).isSome)).filterMap
            (fun r => buildRegionMap REGIONS r.iso3)).dedup)).map
        (fun reg => (reg, ((((filterYear t.rows year).filter
            (fun r => (buildRegionMap REGIONS r.iso3).isSome)).filter
              (fun r => decide (buildRegionMap REGIONS r.iso3 = some reg))).map
          (fun r => r.val c)).sum)) := by
    simp only [aggregate_by_region]
    rw [if_neg hcond]
  have hdouble : ∀ reg : String,
      ((filterYear t.rows year).filter
          (fun r => (buildRegionMap REGIONS r.iso3).isSome)).filter
        (fun r => decide (buildRegionMap REGIONS r.iso3 = some reg)) =
      (filterYear t.rows year).filter
        (fun r => decide (buildRegionMap REGIONS r.iso3 = some reg)) := by
    intro reg
    rw [List.filter_filter]
    refine List.filter_congr ?_
    intro r _
    cases h : buildRegionMap REGIONS r.iso3 <;> simp [h]
  have hfst : (aggregate_by_region t c year).map Prod.fst =
      sortByKey (fun s : String => s)
        ((((filterYear t.rows year).filter
            (fun r => (buildRegionMap REGIONS r.iso3).isSome)).filterMap
          (fun r => buildRegionMap REGIONS r.iso3)).dedup) := by
    rw [hagg, List.map_map]
    exact List.map_id _
  refine ⟨?_, ?_, ?_⟩
  · rw [hfst]
    exact (sortByKey_perm _ _).symm.nodup (List.nodup_dedup _)
  · intro e he
    rw [hagg] at he
    obtain ⟨reg, _, rfl⟩ := List.mem_map.mp he
    simpa using congrArg (fun l => (l.map (fun r : Row => r.val c)).sum) (hdouble reg)
  · intro r hr reg hreg
    rw [hfst, (sortByKey_perm _ _).mem_iff, List.mem_dedup]
    refine List.mem_filterMap.mpr ⟨r, ?_, hreg⟩
    exact List.mem_filter.mpr ⟨hr, by simp [hreg]⟩

/-- Witness for C10: a duplicated hypothetical code resolves to the region
listed last, and the USA row of a concrete table lands in the North America
key of the regional aggregate. -/
theorem claim_C10_witness :
    buildRegionMap [("R1", ["USA"]), ("R2", ["USA"])] "USA" = some "R2" ∧
    "North America" ∈ (aggregate_by_region exRegions "Total" none).map Prod.fst := by
  constructor
  · rw [claim_C10.1]
    decide
  · exact (claim_C10.2.2 exRegions "Total" none (by decide) (List.cons_ne_nil _ _)).2.2
      (mkRow "U" "USA" 2000 7) (List.Mem.head _) "North America" (by decide)

end CO2
